import Mathlib

/-!
Shallow embedding of the GetSync_Cokrator backend's task-timer accounting and
file-library path handling, translated from
`src/backend/src/services/file-library.service.ts` (which bundles the
file-library, auth and task services).  Timestamps are modelled as integer
milliseconds since the epoch (JavaScript `Date.getTime()`), JavaScript
`Math.floor(x / k)` on integers as `Int.fdiv`, nullable fields as `Option`,
thrown exceptions as `Except`, and the Mongo collections touched by the
services as explicit lists inside a `Db` state record.
-/

namespace GetSync

abbrev UserId := Nat
abbrev WorkspaceId := Nat
abbrev TaskId := Nat
abbrev Millis := Int

/-- Role names from `enums/role.enum` (values `OWNER`, `ADMIN`, `MEMBER` are the
ones the embedded services compare against). -/
inductive Role
  | owner
  | admin
  | member
deriving DecidableEq, Repr

/-- Error values thrown by the services (`utils/appError` classes plus the raw
`HttpException` carrying an explicit HTTP status). -/
inductive ServiceError
  | notFound (msg : String)
  | badRequest (msg : String)
  | unauthorized (msg : String)
  | internal (msg : String)
  | http (msg : String) (status : Nat)
deriving DecidableEq, Repr

/-- `HTTPSTATUS.CONFLICT` from `config/http.config`. -/
def CONFLICT : Nat := 409

/-- An error is Conflict-class exactly when it is an `HttpException` carrying
the 409 Conflict status, which is how the timer services signal state-machine
violations. -/
def ServiceError.isConflict : ServiceError → Bool
  | .http _ s => s == CONFLICT
  | _ => false

/-- The timer-relevant portion of a `TaskModel` document, as read and written
by the timer services. -/
structure Task where
  workspace : WorkspaceId
  assignedTo : Option UserId
  createdBy : Option UserId
  isRunning : Bool
  firstStartedAt : Option Millis
  activeStartAt : Option Millis
  lastStoppedAt : Option Millis
  totalSecondsSpent : Option Int
  totalMinutesSpent : Option Int
  pagesCompleted : Option Int
  remarks : Option String
deriving DecidableEq, Repr

/-- A `TaskWorkLogModel` document as created by the stop services. -/
structure WorkLog where
  taskId : TaskId
  userId : UserId
  startedAt : Millis
  stoppedAt : Millis
  durationMinutes : Int
  pagesCompleted : Option Int
  remarks : Option String
deriving DecidableEq, Repr

/-- Body accepted by the stop endpoint (`stopTaskTimerSchema`). -/
structure StopBody where
  pagesCompleted : Option Int
  remarks : Option String
deriving DecidableEq, Repr

/-- The database state the timer services read and write: the task collection
(keyed association list), the append-only work-log collection, and the
membership table mapping (user, workspace) to a role. -/
structure Db where
  tasks : List (TaskId × Task)
  workLogs : List WorkLog
  members : List ((UserId × WorkspaceId) × Role)
deriving DecidableEq, Repr

/-- `TaskModel.findById`. -/
def findTask (tasks : List (TaskId × Task)) (id : TaskId) : Option Task :=
  (tasks.find? (fun p => p.1 == id)).map (fun p => p.2)

/-- `task.save()`: replace the stored document with the mutated one. -/
def saveTask (tasks : List (TaskId × Task)) (id : TaskId) (t : Task) :
    List (TaskId × Task) :=
  tasks.map (fun p => if p.1 == id then (id, t) else p)

/-- Modelled from the spec: `getMemberRoleInWorkspace` lives in
`services/member.service.ts`, which is not present in the sources; per spec
§4.1 it looks up the membership record and fails with a NotFound-class error
when the user is not a member of the workspace, returning the resolved role
otherwise. -/
def getMemberRoleInWorkspace (db : Db) (userId : UserId)
    (workspaceId : WorkspaceId) : Except ServiceError Role :=
  match (db.members.find? (fun p => p.1 == (userId, workspaceId))).map
      (fun p => p.2) with
  | some role => .ok role
  | none => .error (.notFound "Member not found in workspace")

/-- `ensureTaskTimerAccess`: load the task, resolve the caller's role in the
task's workspace, and require a privileged role (OWNER/ADMIN) or that the
caller is the task's assignee. -/
def ensureTaskTimerAccess (db : Db) (taskId : TaskId) (userId : UserId) :
    Except ServiceError Task := do
  match findTask db.tasks taskId with
  | none => .error (.notFound "Task not found.")
  | some task => do
    let role ← getMemberRoleInWorkspace db userId task.workspace
    let isPrivileged := role == Role.owner || role == Role.admin
    let isAssignee := task.assignedTo == some userId
    if !isPrivileged && !isAssignee then
      .error (.unauthorized
        "You do not have permission to manage this task timer.")
    else
      .ok task

/-- The task document as mutated and saved by a successful start:
`firstStartedAt` is only written when previously unset, `activeStartAt` is
always set to `now`, and the task is marked running. -/
def startUpdatedTask (task : Task) (now : Millis) : Task :=
  { task with
    firstStartedAt :=
      match task.firstStartedAt with
      | none => some now
      | some t₀ => some t₀
    activeStartAt := some now
    isRunning := true }

/-- `startTaskTimerService`: conflict if already running; else set
`firstStartedAt` on first-ever start, set `activeStartAt := now`, and mark the
task running. -/
def startTaskTimerService (db : Db) (taskId : TaskId) (userId : UserId)
    (now : Millis) : Except ServiceError (Db × Task) := do
  let task ← ensureTaskTimerAccess db taskId userId
  if task.isRunning then
    .error (.http "Task timer is already running." CONFLICT)
  else
    let task₁ := startUpdatedTask task now
    .ok ({ db with tasks := saveTask db.tasks taskId task₁ }, task₁)

/-- Elapsed whole seconds between start and stop, clamped to at least 1:
`Math.max(1, Math.floor((now - start) / 1000))`. -/
def elapsedSeconds (now start : Millis) : Int :=
  max 1 ((now - start).fdiv 1000)

/-- Whole minutes for the work-log, clamped to at least 1:
`Math.max(1, Math.floor(durationSeconds / 60))`. -/
def durationMinutesOf (durationSeconds : Int) : Int :=
  max 1 (durationSeconds.fdiv 60)

/-- Seconds accumulator seed:
`task.totalSecondsSpent ?? (task.totalMinutesSpent ?? 0) * 60`. -/
def currentSecondsOf (task : Task) : Int :=
  match task.totalSecondsSpent with
  | some s => s
  | none => (match task.totalMinutesSpent with | some m => m | none => 0) * 60

/-- The `TaskWorkLogModel.create` payload of a single stop. -/
def stopWorkLog (taskId : TaskId) (userId : UserId) (body : StopBody)
    (now start : Millis) : WorkLog :=
  { taskId := taskId
    userId := userId
    startedAt := start
    stoppedAt := now
    durationMinutes := durationMinutesOf (elapsedSeconds now start)
    pagesCompleted := body.pagesCompleted
    remarks := body.remarks }

/-- The task document as mutated and saved by a single stop. -/
def stopUpdatedTask (task : Task) (body : StopBody) (now start : Millis) :
    Task :=
  let durationSeconds := elapsedSeconds now start
  let currentSeconds := currentSecondsOf task
  { task with
    totalSecondsSpent := some (currentSeconds + durationSeconds)
    totalMinutesSpent := some ((currentSeconds + durationSeconds).fdiv 60)
    lastStoppedAt := some now
    isRunning := false
    activeStartAt := none
    pagesCompleted :=
      match body.pagesCompleted with
      | some p =>
        some ((match task.pagesCompleted with
               | some q => q
               | none => 0) + p)
      | none => task.pagesCompleted
    remarks :=
      match body.remarks with
      | some r => some r
      | none => task.remarks }

/-- `stopTaskTimerService`: conflict if not running (or `activeStartAt`
missing); else append a work-log, add the elapsed seconds to the task's
seconds total, re-derive the minutes total, clear the running state, and fold
in the optional pages/remarks from the body. -/
def stopTaskTimerService (db : Db) (taskId : TaskId) (userId : UserId)
    (body : StopBody) (now : Millis) : Except ServiceError (Db × Task) := do
  let task ← ensureTaskTimerAccess db taskId userId
  match task.activeStartAt with
  | none => .error (.http "Task timer is not running." CONFLICT)
  | some start =>
    if !task.isRunning then
      .error (.http "Task timer is not running." CONFLICT)
    else
      let task₁ := stopUpdatedTask task body now start
      .ok ({ db with
              tasks := saveTask db.tasks taskId task₁
              workLogs := db.workLogs ++ [stopWorkLog taskId userId body now start] },
           task₁)

/-- The query `{ workspace, isRunning: true, activeStartAt: { $ne: null } }`
used by the bulk stop. -/
def runningTasks (db : Db) (workspaceId : WorkspaceId) :
    List (TaskId × Task) :=
  db.tasks.filter (fun p =>
    p.2.workspace == workspaceId && p.2.isRunning && p.2.activeStartAt.isSome)

/-- The work-log `stopAll` creates for one running task: the acting user is
`task.assignedTo ?? task.createdBy ?? userId`.  Returns `none` when the task
has no `activeStartAt` (the inner early-return guard). -/
def stopAllLogFor (now : Millis) (actorId : UserId) (entry : TaskId × Task) :
    Option WorkLog :=
  match entry.2.activeStartAt with
  | none => none
  | some start =>
    some
      { taskId := entry.1
        userId :=
          match entry.2.assignedTo with
          | some a => a
          | none =>
            match entry.2.createdBy with
            | some c => c
            | none => actorId
        startedAt := start
        stoppedAt := now
        durationMinutes := durationMinutesOf (elapsedSeconds now start)
        pagesCompleted := none
        remarks := none }

/-- The stopped version of one running task as written back by `stopAll`. -/
def stopAllStopTask (now : Millis) (task : Task) (start : Millis) : Task :=
  let durationSeconds := elapsedSeconds now start
  let currentSeconds := currentSecondsOf task
  { task with
    totalSecondsSpent := some (currentSeconds + durationSeconds)
    totalMinutesSpent := some ((currentSeconds + durationSeconds).fdiv 60)
    lastStoppedAt := some now
    isRunning := false
    activeStartAt := none }

/-- One iteration of the bulk stop: skip when `activeStartAt` is absent,
otherwise append the work-log and save the stopped task. -/
def stopAllStep (now : Millis) (actorId : UserId) (db : Db)
    (entry : TaskId × Task) : Db :=
  match entry.2.activeStartAt with
  | none => db
  | some start =>
    match stopAllLogFor now actorId entry with
    | none => db
    | some workLog =>
      { db with
        tasks := saveTask db.tasks entry.1 (stopAllStopTask now entry.2 start)
        workLogs := db.workLogs ++ [workLog] }

/-- `stopAllRunningTaskTimersService`: privileged-only; finds every running
task in the workspace, stops each with the same accounting as `stop` but
attributing the work-log to the assignee/creator/actor, and returns the count
of tasks found. -/
def stopAllRunningTaskTimersService (db : Db) (workspaceId : WorkspaceId)
    (userId : UserId) (now : Millis) : Except ServiceError (Db × Nat) := do
  let role ← getMemberRoleInWorkspace db userId workspaceId
  let isPrivileged := role == Role.owner || role == Role.admin
  if !isPrivileged then
    .error (.unauthorized "Only admins can stop all running task timers.")
  else
    let running := runningTasks db workspaceId
    if running.isEmpty then
      .ok (db, 0)
    else
      .ok (running.foldl (stopAllStep now userId) db, running.length)

/-! ### File library: path resolution and storage operations

Absolute paths are modelled as lists of path components; the on-disk state as
explicit lists of directories and (file, size) pairs.  The Mongo-backed access
log (`logFileAccess`) is orthogonal to every claim and is not modelled. -/

abbrev AbsPath := List String

/-- The `/`-separated segments of a relative path. -/
def pathSegments (relPath : String) : List String :=
  (relPath.data.splitOn '/').map (fun cs => String.mk cs)

/-- Whether the user-supplied path is absolute (starts with a separator). -/
def startsWithSlash (relPath : String) : Bool :=
  match relPath.data with
  | [] => false
  | c :: _ => c == '/'

/-- Normalise the segments of a relative path: drop empty and `.` segments,
let `..` pop the previous segment, and fail when `..` would climb above the
base (the path would escape the workspace root). -/
def normalizeComponents : List String → List String → Option (List String)
  | [], acc => some acc.reverse
  | c :: rest, acc =>
    if c = "" || c = "." then normalizeComponents rest acc
    else if c = ".." then
      match acc with
      | [] => none
      | _ :: tl => normalizeComponents rest tl
    else normalizeComponents rest (c :: acc)

/-- Modelled from the spec: `resolveWorkspacePath` lives in
`utils/file-storage.ts`, which is not present in the sources.  Per spec §4.5
it must reject any path that, after normalization, would resolve outside the
workspace root (both `..` traversal and absolute-path injection), normalise to
a canonical absolute path, and treat an empty relative path as the workspace
root itself. -/
def resolveWorkspacePath (workspaceRoot : AbsPath) (relPath : String) :
    Except ServiceError AbsPath :=
  if startsWithSlash relPath then .error (.badRequest "Invalid file path")
  else
    match normalizeComponents (pathSegments relPath) [] with
    | none => .error (.badRequest "Invalid file path")
    | some comps => .ok (workspaceRoot ++ comps)

/-- Modelled from the spec: `sanitizeFileName` lives in
`utils/file-storage.ts`, which is not present in the sources.  Per spec §4.5
uploaded file names are stripped of path separators before being joined to the
target directory. -/
def sanitizeFileName (name : String) : String :=
  String.mk (name.data.filter (fun c => !(c == '/' || c == '\\')))

/-- On-disk state: the set of directories and the files with their sizes. -/
structure Fs where
  dirs : List AbsPath
  files : List (AbsPath × Int)
deriving DecidableEq, Repr

def Fs.dirExists (fs : Fs) (p : AbsPath) : Bool :=
  fs.dirs.contains p

def Fs.fileExists (fs : Fs) (p : AbsPath) : Bool :=
  (fs.files.find? (fun q => q.1 == p)).isSome

def Fs.pathExists (fs : Fs) (p : AbsPath) : Bool :=
  fs.dirExists p || fs.fileExists p

/-- `fs.mkdir(p, { recursive: true })`: create the directory and any missing
ancestors; succeeds when it already exists. -/
def mkdirRecursive (fs : Fs) (p : AbsPath) : Fs :=
  { fs with dirs := (p.inits.filter (fun q => !fs.dirs.contains q)) ++ fs.dirs }

/-- Error codes surfaced by the strict (non-recursive) `fs.mkdir`. -/
inductive FsErrorCode
  | eexist
  | enoent
deriving DecidableEq, Repr

/-- `fs.mkdir(p, { recursive: false })`: `EEXIST` when something already sits
at the path, `ENOENT` when the parent directory is missing. -/
def mkdirStrict (fs : Fs) (p : AbsPath) : Except FsErrorCode Fs :=
  if fs.pathExists p then .error .eexist
  else if !fs.dirExists p.dropLast then .error .enoent
  else .ok { fs with dirs := p :: fs.dirs }

/-- `fs.writeFile`: create or overwrite. -/
def writeFile (fs : Fs) (p : AbsPath) (size : Int) : Fs :=
  if fs.fileExists p then
    { fs with files := fs.files.map (fun q => if q.1 == p then (p, size) else q) }
  else
    { fs with files := (p, size) :: fs.files }

/-- `fs.rm(p, { recursive: true })`: drop the directory and everything under
it. -/
def removeTree (fs : Fs) (p : AbsPath) : Fs :=
  { fs with
    dirs := fs.dirs.filter (fun q => !(p.isPrefixOf q))
    files := fs.files.filter (fun q => !(p.isPrefixOf q.1)) }

/-- `ensureWorkspaceRoot`: lazily create the per-workspace storage directory
before anything else happens. -/
def ensureWorkspaceRoot (fs : Fs) (workspaceRoot : AbsPath) : Fs :=
  mkdirRecursive fs workspaceRoot

/-- Names of the immediate children of a directory (`fs.readdir`). -/
def childNames (fs : Fs) (p : AbsPath) : List String :=
  ((fs.dirs ++ fs.files.map (fun q => q.1)).filter
    (fun q => q.length == p.length + 1 && p.isPrefixOf q)).filterMap
    (fun q => q.getLast?)

/-- `listWorkspaceFilesService`: ensure the root, resolve the path, require an
existing directory, and list its entries. -/
def listWorkspaceFilesService (fs : Fs) (workspaceRoot : AbsPath)
    (relPath : Option String) : Except ServiceError (List String) × Fs :=
  let fs₁ := ensureWorkspaceRoot fs workspaceRoot
  match resolveWorkspacePath workspaceRoot (relPath.getD "") with
  | .error e => (.error e, fs₁)
  | .ok targetAbs =>
    if !fs₁.pathExists targetAbs then
      (.error (.notFound "Folder not found"), fs₁)
    else if !fs₁.dirExists targetAbs then
      (.error (.badRequest "Path is not a folder"), fs₁)
    else
      (.ok (childNames fs₁ targetAbs), fs₁)

/-- `getWorkspaceFileDownloadService`: resolve the path and require an
existing regular file; returns its basename and size. -/
def getWorkspaceFileDownloadService (fs : Fs) (workspaceRoot : AbsPath)
    (relPath : String) : Except ServiceError (String × Int) × Fs :=
  match resolveWorkspacePath workspaceRoot relPath with
  | .error e => (.error e, fs)
  | .ok targetAbs =>
    match (fs.files.find? (fun q => q.1 == targetAbs)).map (fun q => q.2) with
    | some size => (.ok (targetAbs.getLastD "", size), fs)
    | none =>
      if fs.dirExists targetAbs then
        (.error (.badRequest "Path is not a file"), fs)
      else
        (.error (.notFound "File not found"), fs)

/-- `uploadWorkspaceFilesService`: reject an empty upload, ensure the root,
resolve the target, create it, and write each file under its sanitised
name. -/
def uploadWorkspaceFilesService (fs : Fs) (workspaceRoot : AbsPath)
    (relPath : Option String) (files : List (String × Int)) :
    Except ServiceError (List (String × Int)) × Fs :=
  if files.isEmpty then
    (.error (.badRequest "No files uploaded"), fs)
  else
    let fs₁ := ensureWorkspaceRoot fs workspaceRoot
    match resolveWorkspacePath workspaceRoot (relPath.getD "") with
    | .error e => (.error e, fs₁)
    | .ok targetAbs =>
      let fs₂ := mkdirRecursive fs₁ targetAbs
      let fs₃ := files.foldl
        (fun acc f => writeFile acc (targetAbs ++ [sanitizeFileName f.1]) f.2)
        fs₂
      (.ok (files.map (fun f => (sanitizeFileName f.1, f.2))), fs₃)

/-- `createWorkspaceFolderService`: ensure the root, resolve the target,
join the sanitised folder name, and create it non-recursively, mapping
`EEXIST` to the BadRequestException with message "Folder already exists" and
rethrowing any other error. -/
def createWorkspaceFolderService (fs : Fs) (workspaceRoot : AbsPath)
    (relPath : Option String) (name : String) :
    Except ServiceError String × Fs :=
  let fs₁ := ensureWorkspaceRoot fs workspaceRoot
  match resolveWorkspacePath workspaceRoot (relPath.getD "") with
  | .error e => (.error e, fs₁)
  | .ok targetAbs =>
    let safeName := sanitizeFileName name
    let folderPath := targetAbs ++ [safeName]
    match mkdirStrict fs₁ folderPath with
    | .error .eexist => (.error (.badRequest "Folder already exists"), fs₁)
    | .error .enoent => (.error (.internal "ENOENT"), fs₁)
    | .ok fs₂ => (.ok safeName, fs₂)

/-- `deleteWorkspaceItemService`: ensure the root, resolve the target, and
remove a directory recursively (`true`) or unlink a file (`false`). -/
def deleteWorkspaceItemService (fs : Fs) (workspaceRoot : AbsPath)
    (relPath : String) : Except ServiceError (Bool × String) × Fs :=
  let fs₁ := ensureWorkspaceRoot fs workspaceRoot
  match resolveWorkspacePath workspaceRoot relPath with
  | .error e => (.error e, fs₁)
  | .ok targetAbs =>
    let itemName := targetAbs.getLastD ""
    if fs₁.dirExists targetAbs then
      (.ok (true, itemName), removeTree fs₁ targetAbs)
    else if fs₁.fileExists targetAbs then
      (.ok (false, itemName),
       { fs₁ with files := fs₁.files.filter (fun q => !(q.1 == targetAbs)) })
    else
      (.error (.notFound "File or folder not found"), fs₁)

/-- The repository invariant on one task: `isRunning == true` iff
`activeStartAt != null`. -/
def TaskTimerInv (t : Task) : Prop :=
  t.isRunning = true ↔ t.activeStartAt ≠ none

instance (t : Task) : Decidable (TaskTimerInv t) := by
  unfold TaskTimerInv
  infer_instance

/-- The invariant over every task stored in the database. -/
def DbTimerInv (db : Db) : Prop :=
  ∀ p ∈ db.tasks, TaskTimerInv p.2

instance (db : Db) : Decidable (DbTimerInv db) := by
  unfold DbTimerInv
  infer_instance

/-! ### Concrete sample data (used by the witness theorems) -/

def exIdleTask : Task :=
  { workspace := 7
    assignedTo := some 3
    createdBy := some 2
    isRunning := false
    firstStartedAt := none
    activeStartAt := none
    lastStoppedAt := none
    totalSecondsSpent := some 300
    totalMinutesSpent := some 5
    pagesCompleted := none
    remarks := none }

def exRunningTask : Task :=
  { exIdleTask with
    isRunning := true
    firstStartedAt := some 1000
    activeStartAt := some 1000 }

def exLegacyTask : Task :=
  { exRunningTask with
    assignedTo := none
    totalSecondsSpent := none }

def exMembers : List ((UserId × WorkspaceId) × Role) :=
  [((3, 7), Role.member), ((5, 7), Role.member), ((9, 7), Role.admin)]

def exDbIdle : Db :=
  { tasks := [(1, exIdleTask)], workLogs := [], members := exMembers }

def exDbRunning : Db :=
  { tasks := [(1, exRunningTask)], workLogs := [], members := exMembers }

def exDbLegacy : Db :=
  { tasks := [(1, exLegacyTask)], workLogs := [], members := exMembers }

def exDbTwoRunning : Db :=
  { tasks := [(1, exRunningTask), (2, exLegacyTask), (3, exIdleTask)]
    workLogs := []
    members := exMembers }

def exStartedTask : Task := startUpdatedTask exIdleTask 1000

def exDbStarted : Db :=
  { exDbIdle with tasks := saveTask exDbIdle.tasks 1 exStartedTask }

def exStoppedTask : Task := stopUpdatedTask exRunningTask ⟨none, none⟩ 91000 1000

def exDbStopped : Db :=
  { exDbRunning with
    tasks := saveTask exDbRunning.tasks 1 exStoppedTask
    workLogs := exDbRunning.workLogs ++ [stopWorkLog 1 3 ⟨none, none⟩ 91000 1000] }

def exStoppedLegacy : Task := stopUpdatedTask exLegacyTask ⟨none, none⟩ 91000 1000

def exDbLegacyStopped : Db :=
  { exDbLegacy with
    tasks := saveTask exDbLegacy.tasks 1 exStoppedLegacy
    workLogs := exDbLegacy.workLogs ++ [stopWorkLog 1 9 ⟨none, none⟩ 91000 1000] }

def exDbTwoStopped : Db :=
  (runningTasks exDbTwoRunning 7).foldl (stopAllStep 91000 9) exDbTwoRunning

def exWlAssignee : WorkLog :=
  { taskId := 1, userId := 3, startedAt := 1000, stoppedAt := 91000,
    durationMinutes := 1, pagesCompleted := none, remarks := none }

def exWlCreator : WorkLog :=
  { taskId := 2, userId := 2, startedAt := 1000, stoppedAt := 91000,
    durationMinutes := 1, pagesCompleted := none, remarks := none }

def exFsEmpty : Fs := { dirs := [], files := [] }

def exRoot : AbsPath := ["srv", "ws1"]

def exFsNotes : Fs :=
  (createWorkspaceFolderService exFsEmpty exRoot (some "") "notes").2

/-! ### Helper lemmas -/

theorem findTask_saveTask_self (tasks : List (TaskId × Task)) (id : TaskId)
    (t : Task) :
    findTask (saveTask tasks id t) id = (findTask tasks id).map (fun _ => t) := by
  induction tasks with
  | nil => rfl
  | cons q rest ih =>
    simp only [findTask, saveTask, List.map_cons] at ih ⊢
    by_cases h : q.1 = id
    · rw [if_pos (by simp [h]),
        @List.find?_cons_of_pos _ (fun p => p.1 == id) (id, t) _ (by simp),
        @List.find?_cons_of_pos _ (fun p => p.1 == id) q _ (by simp [h])]
      rfl
    · rw [if_neg (by simp [h]),
        @List.find?_cons_of_neg _ (fun p => p.1 == id) q _ (by simp [h]),
        @List.find?_cons_of_neg _ (fun p => p.1 == id) q _ (by simp [h])]
      exact ih

theorem findTask_saveTask_ne (tasks : List (TaskId × Task)) (id id' : TaskId)
    (t : Task) (h : id' ≠ id) :
    findTask (saveTask tasks id t) id' = findTask tasks id' := by
  induction tasks with
  | nil => rfl
  | cons q rest ih =>
    simp only [findTask, saveTask, List.map_cons] at ih ⊢
    by_cases hq : q.1 = id
    · rw [if_pos (by simp [hq]),
        @List.find?_cons_of_neg _ (fun p => p.1 == id') (id, t) _
          (by simp [Ne.symm h]),
        @List.find?_cons_of_neg _ (fun p => p.1 == id') q _
          (by simp [hq, Ne.symm h])]
      exact ih
    · by_cases hq' : q.1 = id'
      · rw [if_neg (by simp [hq]),
          @List.find?_cons_of_pos _ (fun p => p.1 == id') q _ (by simp [hq']),
          @List.find?_cons_of_pos _ (fun p => p.1 == id') q _ (by simp [hq'])]
      · rw [if_neg (by simp [hq]),
          @List.find?_cons_of_neg _ (fun p => p.1 == id') q _ (by simp [hq']),
          @List.find?_cons_of_neg _ (fun p => p.1 == id') q _ (by simp [hq'])]
        exact ih

theorem findTask_of_nodup (tasks : List (TaskId × Task))
    (h : (tasks.map Prod.fst).Nodup) (p : TaskId × Task) (hp : p ∈ tasks) :
    findTask tasks p.1 = some p.2 := by
  induction tasks with
  | nil => cases hp
  | cons q rest ih =>
    rcases List.mem_cons.mp hp with rfl | hmem
    · simp [findTask]
    · have hne : q.1 ≠ p.1 := by
        intro he
        have : p.1 ∈ rest.map Prod.fst := List.mem_map_of_mem Prod.fst hmem
        rw [List.map_cons, List.nodup_cons] at h
        exact h.1 (he ▸ this)
      have hbeq : (q.1 == p.1) = false := by simp [hne]
      simp only [findTask, List.find?_cons, hbeq]
      exact ih (by rw [List.map_cons, List.nodup_cons] at h; exact h.2) hmem

theorem saveTask_forall (tasks : List (TaskId × Task)) (id : TaskId) (t : Task)
    (Q : Task → Prop) (hall : ∀ p ∈ tasks, Q p.2) (ht : Q t) :
    ∀ p ∈ saveTask tasks id t, Q p.2 := by
  intro p hp
  rcases List.mem_map.mp hp with ⟨q, hq, rfl⟩
  by_cases h : q.1 = id
  · simp only [h, beq_self_eq_true, if_true]
    exact ht
  · have hbeq : (q.1 == id) = false := by simp [h]
    simp only [hbeq, if_false]
    exact hall q hq

theorem foldl_preserve {α β : Type} (step : α → β → α) (P : α → Prop)
    (hstep : ∀ a b, P a → P (step a b)) :
    ∀ (l : List β) (a : α), P a → P (l.foldl step a) := by
  intro l
  induction l with
  | nil => intro a ha; exact ha
  | cons b rest ih => intro a ha; exact ih (step a b) (hstep a b ha)

theorem length_filterMap_of_isSome {α β : Type} (f : α → Option β) :
    ∀ l : List α, (∀ a ∈ l, (f a).isSome) →
      (l.filterMap f).length = l.length := by
  intro l
  induction l with
  | nil => intro _; rfl
  | cons a rest ih =>
    intro h
    rcases Option.isSome_iff_exists.mp (h a (List.mem_cons_self a rest)) with
      ⟨b, hb⟩
    rw [List.filterMap_cons, hb, List.length_cons, List.length_cons,
      ih (fun x hx => h x (List.mem_cons_of_mem a hx))]

/-- `ensureTaskTimerAccess` can only succeed with the task stored under the
requested id. -/
theorem ensureTaskTimerAccess_ok (db : Db) (taskId : TaskId) (userId : UserId)
    (t : Task) (h : ensureTaskTimerAccess db taskId userId = .ok t) :
    findTask db.tasks taskId = some t := by
  unfold ensureTaskTimerAccess at h
  cases hf : findTask db.tasks taskId with
  | none => rw [hf] at h; cases h
  | some task =>
    rw [hf] at h
    simp only [bind, Except.bind] at h
    split at h
    · cases h
    · split at h
      · cases h
      · cases h; rfl

/-- Explicit form of the access check given the stored task and resolved
role. -/
theorem ensureTaskTimerAccess_eq (db : Db) (taskId : TaskId) (userId : UserId)
    (task : Task) (role : Role) (hf : findTask db.tasks taskId = some task)
    (hr : getMemberRoleInWorkspace db userId task.workspace = .ok role) :
    ensureTaskTimerAccess db taskId userId =
      (if (role == Role.owner || role == Role.admin) ||
          task.assignedTo == some userId then
        .ok task
      else
        .error (.unauthorized
          "You do not have permission to manage this task timer.")) := by
  unfold ensureTaskTimerAccess
  rw [hf]
  simp only [bind, Except.bind]
  rw [hr]
  cases hp : (role == Role.owner || role == Role.admin) with
  | true => simp [hp]
  | false =>
    cases ha : (task.assignedTo == some userId) with
    | true => simp [hp, ha]
    | false => simp [hp, ha]

/-- Successful start means: access check passed, the task was idle, and the
result is exactly the started task saved back into the task collection. -/
theorem startTaskTimerService_ok (db : Db) (taskId : TaskId) (userId : UserId)
    (now : Millis) (db' : Db) (t' : Task)
    (h : startTaskTimerService db taskId userId now = .ok (db', t')) :
    ∃ task, ensureTaskTimerAccess db taskId userId = .ok task ∧
      task.isRunning = false ∧
      t' = startUpdatedTask task now ∧
      db' = { db with
              tasks := saveTask db.tasks taskId (startUpdatedTask task now) } := by
  unfold startTaskTimerService at h
  simp only [bind, Except.bind] at h
  cases hacc : ensureTaskTimerAccess db taskId userId with
  | error e => simp [hacc] at h
  | ok task =>
    simp only [hacc] at h
    cases hrun : task.isRunning with
    | true => simp [hrun] at h
    | false =>
      simp only [hrun, Bool.false_eq_true, if_false] at h
      injection h with h1
      cases h1
      exact ⟨task, rfl, hrun, rfl, rfl⟩

/-- Start on a task whose timer is already running fails with the 409
Conflict `HttpException`. -/
theorem startTaskTimerService_conflict (db : Db) (taskId : TaskId)
    (userId : UserId) (now : Millis) (task : Task)
    (hacc : ensureTaskTimerAccess db taskId userId = .ok task)
    (hrun : task.isRunning = true) :
    startTaskTimerService db taskId userId now =
      .error (.http "Task timer is already running." CONFLICT) := by
  unfold startTaskTimerService
  simp only [bind, Except.bind, hacc, hrun, if_true]

/-- Successful stop means: access check passed, the task was running with a
start timestamp, and the result is exactly the stopped task saved back with
the work-log appended. -/
theorem stopTaskTimerService_ok (db : Db) (taskId : TaskId) (userId : UserId)
    (body : StopBody) (now : Millis) (db' : Db) (t' : Task)
    (h : stopTaskTimerService db taskId userId body now = .ok (db', t')) :
    ∃ task start, ensureTaskTimerAccess db taskId userId = .ok task ∧
      task.activeStartAt = some start ∧ task.isRunning = true ∧
      t' = stopUpdatedTask task body now start ∧
      db' = { db with
              tasks :=
                saveTask db.tasks taskId (stopUpdatedTask task body now start)
              workLogs :=
                db.workLogs ++ [stopWorkLog taskId userId body now start] } := by
  unfold stopTaskTimerService at h
  simp only [bind, Except.bind] at h
  cases hacc : ensureTaskTimerAccess db taskId userId with
  | error e => simp [hacc] at h
  | ok task =>
    simp only [hacc] at h
    cases hstart : task.activeStartAt with
    | none => simp [hstart] at h
    | some start =>
      simp only [hstart] at h
      cases hrun : task.isRunning with
      | true =>
        simp only [hrun, Bool.not_true, Bool.false_eq_true, if_false] at h
        injection h with h1
        cases h1
        exact ⟨task, start, rfl, hstart, hrun, rfl, rfl⟩
      | false => simp [hrun] at h

/-- Stop on a task whose timer is not running fails with the 409 Conflict
`HttpException`. -/
theorem stopTaskTimerService_conflict (db : Db) (taskId : TaskId)
    (userId : UserId) (body : StopBody) (now : Millis) (task : Task)
    (hacc : ensureTaskTimerAccess db taskId userId = .ok task)
    (hrun : task.isRunning = false) :
    stopTaskTimerService db taskId userId body now =
      .error (.http "Task timer is not running." CONFLICT) := by
  unfold stopTaskTimerService
  simp only [bind, Except.bind, hacc]
  cases hstart : task.activeStartAt with
  | none => rfl
  | some start => simp [hrun]

/-- Membership in the bulk-stop query unpacked. -/
theorem mem_runningTasks (db : Db) (workspaceId : WorkspaceId)
    (e : TaskId × Task) (he : e ∈ runningTasks db workspaceId) :
    e ∈ db.tasks ∧ e.2.workspace = workspaceId ∧ e.2.isRunning = true ∧
      e.2.activeStartAt.isSome = true := by
  have hm := List.mem_filter.mp he
  refine ⟨hm.1, ?_⟩
  have hb := hm.2
  simp only [Bool.and_eq_true, beq_iff_eq] at hb
  exact ⟨hb.1.1, hb.1.2, hb.2⟩

/-- Distinct task ids survive the bulk-stop query. -/
theorem runningTasks_keys_nodup (db : Db) (workspaceId : WorkspaceId)
    (h : (db.tasks.map Prod.fst).Nodup) :
    ((runningTasks db workspaceId).map Prod.fst).Nodup :=
  ((List.filter_sublist db.tasks).map Prod.fst).nodup h

/-- The bulk-stop fold appends exactly the per-task work-logs. -/
theorem stopAll_foldl_workLogs (now : Millis) (uid : UserId) :
    ∀ (l : List (TaskId × Task)) (db : Db),
      (l.foldl (stopAllStep now uid) db).workLogs =
        db.workLogs ++ l.filterMap (stopAllLogFor now uid) := by
  intro l
  induction l with
  | nil => intro db; simp
  | cons f rest ih =>
    intro db
    rw [List.foldl_cons, List.filterMap_cons]
    cases hs : f.2.activeStartAt with
    | none =>
      simp only [stopAllStep, stopAllLogFor, hs]
      rw [ih db]
    | some start =>
      simp only [stopAllStep, stopAllLogFor, hs]
      rw [ih]
      simp

/-- One bulk-stop iteration keeps every task id present or absent as it
was. -/
theorem findTask_isSome_stopAllStep (now : Millis) (uid : UserId) (db : Db)
    (f : TaskId × Task) (id : TaskId) :
    (findTask (stopAllStep now uid db f).tasks id).isSome =
      (findTask db.tasks id).isSome := by
  cases hs : f.2.activeStartAt with
  | none => simp [stopAllStep, hs]
  | some start =>
    simp only [stopAllStep, stopAllLogFor, hs]
    by_cases hid : id = f.1
    · subst hid
      rw [findTask_saveTask_self]
      cases findTask db.tasks f.1 <;> rfl
    · rw [findTask_saveTask_ne _ _ _ _ hid]

/-- Tasks whose id is hit by no entry of the fold are left untouched. -/
theorem stopAll_foldl_findTask_ne (now : Millis) (uid : UserId) :
    ∀ (l : List (TaskId × Task)) (db : Db) (id : TaskId),
      (∀ e ∈ l, e.1 ≠ id) →
      findTask (l.foldl (stopAllStep now uid) db).tasks id =
        findTask db.tasks id := by
  intro l
  induction l with
  | nil => intro db id _; rfl
  | cons f rest ih =>
    intro db id hne
    rw [List.foldl_cons,
      ih (stopAllStep now uid db f) id
        (fun e he => hne e (List.mem_cons_of_mem f he))]
    cases hs : f.2.activeStartAt with
    | none => simp [stopAllStep, hs]
    | some start =>
      simp only [stopAllStep, stopAllLogFor, hs]
      exact findTask_saveTask_ne _ _ _ _
        (fun hEq => hne f (List.mem_cons_self f rest) hEq.symm)

/-- Under distinct ids, a task picked up by the bulk stop ends up stored in
its stopped form. -/
theorem stopAll_foldl_findTask_mem (now : Millis) (uid : UserId) :
    ∀ (l : List (TaskId × Task)) (db : Db) (e : TaskId × Task)
      (start : Millis),
      (l.map Prod.fst).Nodup → e ∈ l → e.2.activeStartAt = some start →
      (findTask db.tasks e.1).isSome = true →
      findTask (l.foldl (stopAllStep now uid) db).tasks e.1 =
        some (stopAllStopTask now e.2 start) := by
  intro l
  induction l with
  | nil => intro db e start _ he; cases he
  | cons f rest ih =>
    intro db e start hnd he hs hpres
    rw [List.foldl_cons]
    rcases List.mem_cons.mp he with rfl | hmem
    · have hne : ∀ e' ∈ rest, e'.1 ≠ e.1 := by
        intro e' he' hEq
        have hnotin : e.1 ∉ rest.map Prod.fst := by
          rw [List.map_cons, List.nodup_cons] at hnd
          exact hnd.1
        exact hnotin (hEq ▸ List.mem_map_of_mem Prod.fst he')
      rw [stopAll_foldl_findTask_ne now uid rest (stopAllStep now uid db e)
        e.1 hne]
      simp only [stopAllStep, stopAllLogFor, hs]
      rw [findTask_saveTask_self]
      rcases Option.isSome_iff_exists.mp hpres with ⟨x, hx⟩
      rw [hx]
      rfl
    · have hnd' : (rest.map Prod.fst).Nodup := by
        rw [List.map_cons, List.nodup_cons] at hnd
        exact hnd.2
      have hpres' : (findTask (stopAllStep now uid db f).tasks e.1).isSome = true := by
        rw [findTask_isSome_stopAllStep]
        exact hpres
      exact ih (stopAllStep now uid db f) e start hnd' hmem hs hpres'

/-- Success shape of the bulk stop: a privileged role was resolved, the count
is the number of running tasks found, and the final state is the fold of the
per-task stop over that snapshot. -/
theorem stopAllRunningTaskTimersService_ok (db : Db)
    (workspaceId : WorkspaceId) (userId : UserId) (now : Millis) (db' : Db)
    (n : Nat)
    (h : stopAllRunningTaskTimersService db workspaceId userId now =
      .ok (db', n)) :
    ∃ role, getMemberRoleInWorkspace db userId workspaceId = .ok role ∧
      (role == Role.owner || role == Role.admin) = true ∧
      n = (runningTasks db workspaceId).length ∧
      db' = (runningTasks db workspaceId).foldl (stopAllStep now userId) db := by
  unfold stopAllRunningTaskTimersService at h
  simp only [bind, Except.bind] at h
  cases hrole : getMemberRoleInWorkspace db userId workspaceId with
  | error e => simp [hrole] at h
  | ok role =>
    simp only [hrole] at h
    cases hp : (role == Role.owner || role == Role.admin) with
    | false => simp [hp] at h
    | true =>
      simp only [hp, Bool.not_true, Bool.false_eq_true, if_false] at h
      cases hemp : (runningTasks db workspaceId).isEmpty with
      | true =>
        simp only [hemp, if_true] at h
        injection h with h1
        cases h1
        have hnil : runningTasks db workspaceId = [] :=
          List.isEmpty_iff.mp hemp
        exact ⟨role, rfl, hp, by rw [hnil]; rfl, by rw [hnil, List.foldl_nil]⟩
      | false =>
        simp only [hemp, Bool.false_eq_true, if_false] at h
        injection h with h1
        cases h1
        exact ⟨role, rfl, hp, rfl, rfl⟩

/-- Every successful resolution lands at a path extending the workspace
root. -/
theorem resolveWorkspacePath_ok (root : AbsPath) (rel : String)
    (target : AbsPath) (h : resolveWorkspacePath root rel = .ok target) :
    ∃ rest, target = root ++ rest := by
  unfold resolveWorkspacePath at h
  by_cases hs : startsWithSlash rel = true
  · rw [if_pos hs] at h; cases h
  · rw [if_neg hs] at h
    cases hn : normalizeComponents (pathSegments rel) [] with
    | none => simp [hn] at h
    | some comps =>
      simp only [hn] at h
      injection h with h1
      exact ⟨comps, h1.symm⟩

/-- The empty relative path resolves to the workspace root itself. -/
theorem resolveWorkspacePath_empty (root : AbsPath) :
    resolveWorkspacePath root "" = .ok root := by
  unfold resolveWorkspacePath
  rw [if_neg (by decide : ¬startsWithSlash "" = true)]
  have h1 : normalizeComponents (pathSegments "") [] = some [] := rfl
  rw [h1]
  simp

/-- `"../../etc"` is rejected for every workspace root. -/
theorem resolveWorkspacePath_traversal (root : AbsPath) :
    resolveWorkspacePath root "../../etc" =
      .error (.badRequest "Invalid file path") := by
  unfold resolveWorkspacePath
  rw [if_neg (by decide : ¬startsWithSlash "../../etc" = true)]
  have h1 : normalizeComponents (pathSegments "../../etc") [] = none := rfl
  rw [h1]

/-- All the directories created by a recursive mkdir are present
afterwards. -/
theorem mkdirRecursive_contains (fs : Fs) (p q : AbsPath) (hq : q ∈ p.inits) :
    (mkdirRecursive fs p).dirs.contains q = true := by
  simp only [mkdirRecursive]
  apply List.elem_iff.mpr
  rw [List.mem_append]
  cases hc : fs.dirs.contains q with
  | true => exact Or.inr (List.elem_iff.mp hc)
  | false =>
    exact Or.inl (List.mem_filter.mpr ⟨hq, by rw [hc]; rfl⟩)

/-- A recursive mkdir whose every ancestor already exists is a no-op. -/
theorem mkdirRecursive_eq_self (fs : Fs) (p : AbsPath)
    (h : ∀ q ∈ p.inits, fs.dirs.contains q = true) :
    mkdirRecursive fs p = fs := by
  simp only [mkdirRecursive]
  have hnil : p.inits.filter (fun q => !fs.dirs.contains q) = [] := by
    rw [List.filter_eq_nil_iff]
    intro q hq
    rw [h q hq]
    decide
  rw [hnil]
  rfl

/-- When the resolver rejects, `list` fails and storage is untouched beyond
the lazy workspace-root creation. -/
theorem listWorkspaceFilesService_resolver_error (fs : Fs) (root : AbsPath)
    (relPath : Option String) (e : ServiceError)
    (h : resolveWorkspacePath root (relPath.getD "") = .error e) :
    listWorkspaceFilesService fs root relPath =
      (.error e, ensureWorkspaceRoot fs root) := by
  unfold listWorkspaceFilesService
  rw [h]

/-- When the resolver rejects, `download` fails and storage is untouched. -/
theorem getWorkspaceFileDownloadService_resolver_error (fs : Fs)
    (root : AbsPath) (relPath : String) (e : ServiceError)
    (h : resolveWorkspacePath root relPath = .error e) :
    getWorkspaceFileDownloadService fs root relPath = (.error e, fs) := by
  unfold getWorkspaceFileDownloadService
  rw [h]

/-- When the resolver rejects, `upload` fails and storage is untouched beyond
the lazy workspace-root creation. -/
theorem uploadWorkspaceFilesService_resolver_error (fs : Fs) (root : AbsPath)
    (relPath : Option String) (files : List (String × Int)) (e : ServiceError)
    (hne : files.isEmpty = false)
    (h : resolveWorkspacePath root (relPath.getD "") = .error e) :
    uploadWorkspaceFilesService fs root relPath files =
      (.error e, ensureWorkspaceRoot fs root) := by
  unfold uploadWorkspaceFilesService
  rw [hne]
  simp only [Bool.false_eq_true, if_false, h]

/-- When the resolver rejects, `create folder` fails and storage is untouched
beyond the lazy workspace-root creation. -/
theorem createWorkspaceFolderService_resolver_error (fs : Fs) (root : AbsPath)
    (relPath : Option String) (name : String) (e : ServiceError)
    (h : resolveWorkspacePath root (relPath.getD "") = .error e) :
    createWorkspaceFolderService fs root relPath name =
      (.error e, ensureWorkspaceRoot fs root) := by
  unfold createWorkspaceFolderService
  rw [h]

/-- When the resolver rejects, `delete` fails and storage is untouched beyond
the lazy workspace-root creation. -/
theorem deleteWorkspaceItemService_resolver_error (fs : Fs) (root : AbsPath)
    (relPath : String) (e : ServiceError)
    (h : resolveWorkspacePath root relPath = .error e) :
    deleteWorkspaceItemService fs root relPath =
      (.error e, ensureWorkspaceRoot fs root) := by
  unfold deleteWorkspaceItemService
  rw [h]

/-- A successful folder creation records the new directory on top of the
ensured state. -/
theorem createWorkspaceFolderService_ok (fs : Fs) (root : AbsPath)
    (relPath : Option String) (name : String) (res : String) (fs' : Fs)
    (h : createWorkspaceFolderService fs root relPath name = (.ok res, fs')) :
    ∃ targetAbs,
      resolveWorkspacePath root (relPath.getD "") = .ok targetAbs ∧
      res = sanitizeFileName name ∧
      fs' = { ensureWorkspaceRoot fs root with
              dirs := (targetAbs ++ [sanitizeFileName name]) ::
                (ensureWorkspaceRoot fs root).dirs } := by
  unfold createWorkspaceFolderService at h
  cases hr : resolveWorkspacePath root (relPath.getD "") with
  | error e => rw [hr] at h; cases h
  | ok targetAbs =>
    rw [hr] at h
    refine ⟨targetAbs, rfl, ?_⟩
    unfold mkdirStrict at h
    cases hex : (ensureWorkspaceRoot fs root).pathExists
        (targetAbs ++ [sanitizeFileName name]) with
    | true => simp [hex] at h
    | false =>
      simp only [hex, Bool.false_eq_true, if_false] at h
      rw [List.dropLast_concat] at h
      cases hpar : (ensureWorkspaceRoot fs root).dirExists targetAbs with
      | false => simp [hpar] at h
      | true =>
        simp only [hpar, Bool.not_true, Bool.false_eq_true, if_false] at h
        injection h with h1 h2
        injection h1 with h1
        exact ⟨h1.symm, h2.symm⟩

/-- Creating a folder over an existing path fails with the BadRequest
`"Folder already exists"` error and leaves storage as ensured. -/
theorem createWorkspaceFolderService_exists (fs : Fs) (root : AbsPath)
    (relPath : Option String) (name : String) (targetAbs : AbsPath)
    (hr : resolveWorkspacePath root (relPath.getD "") = .ok targetAbs)
    (hex : (ensureWorkspaceRoot fs root).pathExists
      (targetAbs ++ [sanitizeFileName name]) = true) :
    createWorkspaceFolderService fs root relPath name =
      (.error (.badRequest "Folder already exists"),
       ensureWorkspaceRoot fs root) := by
  unfold createWorkspaceFolderService mkdirStrict
  simp only [hr, hex, if_true]

/-- A failed access check propagates out of start unchanged. -/
theorem startTaskTimerService_accessError (db : Db) (taskId : TaskId)
    (userId : UserId) (now : Millis) (e : ServiceError)
    (h : ensureTaskTimerAccess db taskId userId = .error e) :
    startTaskTimerService db taskId userId now = .error e := by
  unfold startTaskTimerService
  simp only [bind, Except.bind, h]

/-- A failed access check propagates out of stop unchanged. -/
theorem stopTaskTimerService_accessError (db : Db) (taskId : TaskId)
    (userId : UserId) (body : StopBody) (now : Millis) (e : ServiceError)
    (h : ensureTaskTimerAccess db taskId userId = .error e) :
    stopTaskTimerService db taskId userId body now = .error e := by
  unfold stopTaskTimerService
  simp only [bind, Except.bind, h]

/-! ### Claim theorems -/

/-- C3: past the access check, starting an already-running timer fails with
the Conflict-class (HTTP 409) error, and stopping a non-running timer fails
with the Conflict-class (HTTP 409) error.  In both cases the service returns
only the error — the mutation path (`task.save()`) is never reached, so the
task's timer fields are unchanged. -/
theorem C3_conflict_on_invalid_transition (db : Db) (taskId : TaskId)
    (userId : UserId) (now : Millis) (body : StopBody) (task : Task)
    (hacc : ensureTaskTimerAccess db taskId userId = .ok task) :
    (task.isRunning = true →
      startTaskTimerService db taskId userId now =
        .error (.http "Task timer is already running." CONFLICT) ∧
      (ServiceError.http "Task timer is already running." CONFLICT).isConflict
        = true) ∧
    (task.isRunning = false →
      stopTaskTimerService db taskId userId body now =
        .error (.http "Task timer is not running." CONFLICT) ∧
      (ServiceError.http "Task timer is not running." CONFLICT).isConflict
        = true) :=
  ⟨fun hrun =>
    ⟨startTaskTimerService_conflict db taskId userId now task hacc hrun, rfl⟩,
   fun hrun =>
    ⟨stopTaskTimerService_conflict db taskId userId body now task hacc hrun,
     rfl⟩⟩

/-- Witness for C3 at a concrete database: starting the running sample task
and stopping the idle sample task both produce the 409 Conflict error. -/
theorem C3_witness :
    startTaskTimerService exDbRunning 1 3 91000 =
      .error (.http "Task timer is already running." CONFLICT) ∧
    stopTaskTimerService exDbIdle 1 3 ⟨none, none⟩ 91000 =
      .error (.http "Task timer is not running." CONFLICT) :=
  ⟨((C3_conflict_on_invalid_transition exDbRunning 1 3 91000 ⟨none, none⟩
      exRunningTask rfl).1 rfl).1,
   ((C3_conflict_on_invalid_transition exDbIdle 1 3 91000 ⟨none, none⟩
      exIdleTask rfl).2 rfl).1⟩

/-- C7: the timer access check succeeds exactly when the actor's role in the
task's workspace is OWNER or ADMIN or the actor is the task's assignee; a
MEMBER who is not the assignee receives the Unauthorized error from the check
and hence from both start and stop. -/
theorem C7_timer_access_control (db : Db) (taskId : TaskId) (userId : UserId)
    (task : Task) (role : Role)
    (hf : findTask db.tasks taskId = some task)
    (hr : getMemberRoleInWorkspace db userId task.workspace = .ok role) :
    (ensureTaskTimerAccess db taskId userId = .ok task ↔
      (role = Role.owner ∨ role = Role.admin ∨
        task.assignedTo = some userId)) ∧
    (role = Role.member → task.assignedTo ≠ some userId →
      ensureTaskTimerAccess db taskId userId =
        .error (.unauthorized
          "You do not have permission to manage this task timer.") ∧
      (∀ now, startTaskTimerService db taskId userId now =
        .error (.unauthorized
          "You do not have permission to manage this task timer.")) ∧
      (∀ body now, stopTaskTimerService db taskId userId body now =
        .error (.unauthorized
          "You do not have permission to manage this task timer."))) := by
  have heq := ensureTaskTimerAccess_eq db taskId userId task role hf hr
  have hcond : ((role == Role.owner || role == Role.admin) ||
      task.assignedTo == some userId) = true ↔
      (role = Role.owner ∨ role = Role.admin ∨
        task.assignedTo = some userId) := by
    simp [Bool.or_eq_true, beq_iff_eq, or_assoc]
  constructor
  · constructor
    · intro hok
      rw [heq] at hok
      by_cases hb : ((role == Role.owner || role == Role.admin) ||
          task.assignedTo == some userId) = true
      · exact hcond.mp hb
      · rw [if_neg hb] at hok
        cases hok
    · intro hor
      rw [heq, if_pos (hcond.mpr hor)]
  · intro hrole hasg
    have hba : (task.assignedTo == some userId) = false :=
      beq_eq_false_iff_ne.mpr hasg
    have hb : ((role == Role.owner || role == Role.admin) ||
        task.assignedTo == some userId) = false := by
      subst hrole
      simp [hba]
    have hens : ensureTaskTimerAccess db taskId userId =
        .error (.unauthorized
          "You do not have permission to manage this task timer.") := by
      rw [heq, if_neg (by simp [hb])]
    exact ⟨hens,
      fun now => startTaskTimerService_accessError db taskId userId now _ hens,
      fun body now =>
        stopTaskTimerService_accessError db taskId userId body now _ hens⟩

/-- Witness for C7: user 5 is a MEMBER and not the assignee of sample task 1
(assigned to user 3), so the access check and both timer operations reject
with Unauthorized, while the assignee (user 3) passes the access check. -/
theorem C7_witness :
    ensureTaskTimerAccess exDbRunning 1 5 =
      .error (.unauthorized
        "You do not have permission to manage this task timer.") ∧
    startTaskTimerService exDbRunning 1 5 1000 =
      .error (.unauthorized
        "You do not have permission to manage this task timer.") ∧
    stopTaskTimerService exDbRunning 1 5 ⟨none, none⟩ 1000 =
      .error (.unauthorized
        "You do not have permission to manage this task timer.") ∧
    ensureTaskTimerAccess exDbRunning 1 3 = .ok exRunningTask := by
  have h5 := C7_timer_access_control exDbRunning 1 5 exRunningTask Role.member
    (by decide) rfl
  have h3 := C7_timer_access_control exDbRunning 1 3 exRunningTask Role.member
    (by decide) rfl
  have hden := h5.2 rfl (by decide)
  exact ⟨hden.1, hden.2.1 1000, hden.2.2 ⟨none, none⟩ 1000,
    h3.1.mpr (Or.inr (Or.inr (by decide)))⟩

/-- C2: the invariant `isRunning == true ⇔ activeStartAt != null` is
preserved by every timer operation: if it holds of every stored task before a
start, stop or stopAll, it holds of every stored task (and of the returned
task) afterwards. -/
theorem C2_isRunning_iff_activeStartAt (db : Db) (hinv : DbTimerInv db) :
    (∀ taskId userId now db' t',
      startTaskTimerService db taskId userId now = .ok (db', t') →
      DbTimerInv db' ∧ TaskTimerInv t') ∧
    (∀ taskId userId body now db' t',
      stopTaskTimerService db taskId userId body now = .ok (db', t') →
      DbTimerInv db' ∧ TaskTimerInv t') ∧
    (∀ workspaceId userId now db' n,
      stopAllRunningTaskTimersService db workspaceId userId now =
        .ok (db', n) →
      DbTimerInv db') := by
  refine ⟨?_, ?_, ?_⟩
  · intro taskId userId now db' t' h
    obtain ⟨task, _, _, ht', hdb'⟩ :=
      startTaskTimerService_ok db taskId userId now db' t' h
    have hstarted : TaskTimerInv (startUpdatedTask task now) := by
      simp [TaskTimerInv, startUpdatedTask]
    subst ht' hdb'
    exact ⟨saveTask_forall db.tasks taskId _ TaskTimerInv hinv hstarted,
      hstarted⟩
  · intro taskId userId body now db' t' h
    obtain ⟨task, start, _, _, _, ht', hdb'⟩ :=
      stopTaskTimerService_ok db taskId userId body now db' t' h
    have hstopped : TaskTimerInv (stopUpdatedTask task body now start) := by
      simp [TaskTimerInv, stopUpdatedTask]
    subst ht' hdb'
    exact ⟨saveTask_forall db.tasks taskId _ TaskTimerInv hinv hstopped,
      hstopped⟩
  · intro workspaceId userId now db' n h
    obtain ⟨role, _, _, _, hdb'⟩ :=
      stopAllRunningTaskTimersService_ok db workspaceId userId now db' n h
    subst hdb'
    refine foldl_preserve (stopAllStep now userId) DbTimerInv ?_ _ db hinv
    intro a e ha
    unfold stopAllStep
    cases hs : e.2.activeStartAt with
    | none => exact ha
    | some start =>
      simp only [stopAllLogFor, hs]
      have hstopped : TaskTimerInv (stopAllStopTask now e.2 start) := by
        simp [TaskTimerInv, stopAllStopTask]
      exact saveTask_forall a.tasks e.1 _ TaskTimerInv ha hstopped

/-- Witness for C2: after starting the idle sample task the invariant holds
of the whole database and of the started task. -/
theorem C2_witness :
    DbTimerInv exDbStarted ∧ TaskTimerInv exStartedTask :=
  (C2_isRunning_iff_activeStartAt exDbIdle (by decide)).1 1 3 1000
    exDbStarted exStartedTask rfl

/-- C9: a successful start sets `firstStartedAt` to the current time exactly
when the task had never started before, leaves an existing `firstStartedAt`
unchanged, and always sets `activeStartAt := now`; stop and stopAll never
modify any task's `firstStartedAt`. -/
theorem C9_firstStartedAt_set_once (db : Db) :
    (∀ taskId userId now db' t' task,
      findTask db.tasks taskId = some task →
      startTaskTimerService db taskId userId now = .ok (db', t') →
      (task.firstStartedAt = none → t'.firstStartedAt = some now) ∧
      (∀ t₀, task.firstStartedAt = some t₀ → t'.firstStartedAt = some t₀) ∧
      t'.activeStartAt = some now ∧
      findTask db'.tasks taskId = some t') ∧
    (∀ taskId userId body now db' t' task,
      findTask db.tasks taskId = some task →
      stopTaskTimerService db taskId userId body now = .ok (db', t') →
      t'.firstStartedAt = task.firstStartedAt ∧
      findTask db'.tasks taskId = some t') ∧
    (∀ workspaceId userId now db' n,
      (db.tasks.map Prod.fst).Nodup →
      stopAllRunningTaskTimersService db workspaceId userId now =
        .ok (db', n) →
      ∀ id task, findTask db.tasks id = some task →
        (findTask db'.tasks id).isSome = true ∧
        ∀ t', findTask db'.tasks id = some t' →
          t'.firstStartedAt = task.firstStartedAt) := by
  refine ⟨?_, ?_, ?_⟩
  · intro taskId userId now db' t' task hf h
    obtain ⟨task₀, hacc, _, ht', hdb'⟩ :=
      startTaskTimerService_ok db taskId userId now db' t' h
    have hf₀ := ensureTaskTimerAccess_ok db taskId userId task₀ hacc
    rw [hf] at hf₀
    injection hf₀ with hf₀
    subst hf₀ ht' hdb'
    refine ⟨?_, ?_, rfl, ?_⟩
    · intro hfs; simp [startUpdatedTask, hfs]
    · intro t₀ hfs; simp [startUpdatedTask, hfs]
    · show findTask (saveTask db.tasks taskId _) taskId = _
      rw [findTask_saveTask_self, hf]
      rfl
  · intro taskId userId body now db' t' task hf h
    obtain ⟨task₀, start, hacc, _, _, ht', hdb'⟩ :=
      stopTaskTimerService_ok db taskId userId body now db' t' h
    have hf₀ := ensureTaskTimerAccess_ok db taskId userId task₀ hacc
    rw [hf] at hf₀
    injection hf₀ with hf₀
    subst hf₀ ht' hdb'
    refine ⟨rfl, ?_⟩
    show findTask (saveTask db.tasks taskId _) taskId = _
    rw [findTask_saveTask_self, hf]
    rfl
  · intro workspaceId userId now db' n hnd h id task hf
    obtain ⟨role, _, _, _, hdb'⟩ :=
      stopAllRunningTaskTimersService_ok db workspaceId userId now db' n h
    subst hdb'
    by_cases hide : ∀ e ∈ runningTasks db workspaceId, e.1 ≠ id
    · rw [stopAll_foldl_findTask_ne now userId _ db id hide, hf]
      exact ⟨rfl, fun t' ht' => by injection ht' with ht'; rw [← ht']⟩
    · push_neg at hide
      obtain ⟨e, he, heid⟩ := hide
      obtain ⟨hmem, _, _, hsome⟩ := mem_runningTasks db workspaceId e he
      obtain ⟨start, hstart⟩ := Option.isSome_iff_exists.mp hsome
      have hfe : findTask db.tasks e.1 = some e.2 :=
        findTask_of_nodup db.tasks hnd e hmem
      have hres := stopAll_foldl_findTask_mem now userId
        (runningTasks db workspaceId) db e start
        (runningTasks_keys_nodup db workspaceId hnd) he hstart
        (by rw [hfe]; rfl)
      rw [heid] at hres
      have htask : task = e.2 := by
        rw [heid, hf] at hfe
        injection hfe with hfe
      refine ⟨by rw [hres]; rfl, fun t' ht' => ?_⟩
      rw [hres] at ht'
      injection ht' with ht'
      rw [← ht', htask]
      rfl

/-- Witness for C9: starting the never-started idle sample task at time 1000
stamps `firstStartedAt` and `activeStartAt` with 1000 and stores the task. -/
theorem C9_witness :
    exStartedTask.firstStartedAt = some 1000 ∧
    exStartedTask.activeStartAt = some 1000 ∧
    findTask exDbStarted.tasks 1 = some exStartedTask := by
  have h := (C9_firstStartedAt_set_once exDbIdle).1 1 3 1000 exDbStarted
    exStartedTask exIdleTask rfl rfl
  exact ⟨h.1 rfl, h.2.2.1, h.2.2.2⟩

/-- C10: when a stopped task has no `totalSecondsSpent`, both stop and
stopAll seed the seconds accumulator from `totalMinutesSpent * 60` (0 when
that is also absent) before adding the elapsed seconds. -/
theorem C10_legacy_minutes_migration (db : Db) :
    (∀ taskId userId body now db' t' task start,
      findTask db.tasks taskId = some task →
      task.totalSecondsSpent = none →
      task.activeStartAt = some start →
      stopTaskTimerService db taskId userId body now = .ok (db', t') →
      t'.totalSecondsSpent =
        some ((match task.totalMinutesSpent with
               | some m => m
               | none => 0) * 60 + elapsedSeconds now start)) ∧
    (∀ workspaceId userId now db' n,
      (db.tasks.map Prod.fst).Nodup →
      stopAllRunningTaskTimersService db workspaceId userId now =
        .ok (db', n) →
      ∀ e ∈ runningTasks db workspaceId, ∀ start,
        e.2.totalSecondsSpent = none →
        e.2.activeStartAt = some start →
        (findTask db'.tasks e.1).isSome = true ∧
        ∀ t', findTask db'.tasks e.1 = some t' →
          t'.totalSecondsSpent =
            some ((match e.2.totalMinutesSpent with
                   | some m => m
                   | none => 0) * 60 + elapsedSeconds now start)) := by
  constructor
  · intro taskId userId body now db' t' task start hf hsec hact h
    obtain ⟨task₀, start₀, hacc, hact₀, _, ht', _⟩ :=
      stopTaskTimerService_ok db taskId userId body now db' t' h
    have hf₀ := ensureTaskTimerAccess_ok db taskId userId task₀ hacc
    rw [hf] at hf₀
    injection hf₀ with hf₀
    subst hf₀
    rw [hact] at hact₀
    injection hact₀ with hact₀
    subst hact₀ ht'
    simp [stopUpdatedTask, currentSecondsOf, hsec]
  · intro workspaceId userId now db' n hnd h e he start hsec hact
    obtain ⟨role, _, _, _, hdb'⟩ :=
      stopAllRunningTaskTimersService_ok db workspaceId userId now db' n h
    subst hdb'
    obtain ⟨hmem, _, _, _⟩ := mem_runningTasks db workspaceId e he
    have hfe : findTask db.tasks e.1 = some e.2 :=
      findTask_of_nodup db.tasks hnd e hmem
    have hres := stopAll_foldl_findTask_mem now userId
      (runningTasks db workspaceId) db e start
      (runningTasks_keys_nodup db workspaceId hnd) he hact
      (by rw [hfe]; rfl)
    refine ⟨by rw [hres]; rfl, fun t' ht' => ?_⟩
    rw [hres] at ht'
    injection ht' with ht'
    rw [← ht']
    simp [stopAllStopTask, currentSecondsOf, hsec]

/-- Witness for C10: stopping the running legacy sample task (5 legacy
minutes, no seconds) after 90 seconds yields 5*60 + 90 seconds. -/
theorem C10_witness :
    exStoppedLegacy.totalSecondsSpent =
      some ((match exLegacyTask.totalMinutesSpent with
             | some m => m
             | none => 0) * 60 + elapsedSeconds 91000 1000) :=
  (C10_legacy_minutes_migration exDbLegacy).1 1 9 ⟨none, none⟩ 91000
    exDbLegacyStopped exStoppedLegacy exLegacyTask 1000 rfl rfl rfl rfl

/-- C1: on every valid stop (single stop, and each task of a stopAll), the
appended work-log's duration in minutes is `max(1, floor(elapsedSeconds/60))`
with `elapsedSeconds = max(1, floor((now - activeStartAt)/1000))`; the task's
`totalSecondsSpent` afterwards is its before-value plus `elapsedSeconds`
exactly; and `totalMinutesSpent` afterwards is
`floor(totalSecondsSpent / 60)`, derived from the seconds. -/
theorem C1_stop_accounting (db : Db) :
    (∀ taskId userId body now db' t' task start s₀,
      findTask db.tasks taskId = some task →
      task.activeStartAt = some start →
      task.totalSecondsSpent = some s₀ →
      stopTaskTimerService db taskId userId body now = .ok (db', t') →
      db'.workLogs = db.workLogs ++ [stopWorkLog taskId userId body now start] ∧
      (stopWorkLog taskId userId body now start).durationMinutes =
        max 1 ((max 1 ((now - start).fdiv 1000)).fdiv 60) ∧
      t'.totalSecondsSpent = some (s₀ + max 1 ((now - start).fdiv 1000)) ∧
      t'.totalMinutesSpent =
        some ((s₀ + max 1 ((now - start).fdiv 1000)).fdiv 60)) ∧
    (∀ workspaceId userId now db' n,
      (db.tasks.map Prod.fst).Nodup →
      stopAllRunningTaskTimersService db workspaceId userId now =
        .ok (db', n) →
      ∀ e ∈ runningTasks db workspaceId, ∀ start s₀,
        e.2.activeStartAt = some start →
        e.2.totalSecondsSpent = some s₀ →
        (stopAllLogFor now userId e).isSome = true ∧
        (∀ wl, stopAllLogFor now userId e = some wl →
          wl ∈ db'.workLogs ∧
          wl.durationMinutes =
            max 1 ((max 1 ((now - start).fdiv 1000)).fdiv 60)) ∧
        (findTask db'.tasks e.1).isSome = true ∧
        (∀ t', findTask db'.tasks e.1 = some t' →
          t'.totalSecondsSpent = some (s₀ + max 1 ((now - start).fdiv 1000)) ∧
          t'.totalMinutesSpent =
            some ((s₀ + max 1 ((now - start).fdiv 1000)).fdiv 60))) := by
  constructor
  · intro taskId userId body now db' t' task start s₀ hf hact hsec h
    obtain ⟨task₀, start₀, hacc, hact₀, _, ht', hdb'⟩ :=
      stopTaskTimerService_ok db taskId userId body now db' t' h
    have hf₀ := ensureTaskTimerAccess_ok db taskId userId task₀ hacc
    rw [hf] at hf₀
    injection hf₀ with hf₀
    subst hf₀
    rw [hact] at hact₀
    injection hact₀ with hact₀
    subst hact₀ ht' hdb'
    refine ⟨rfl, rfl, ?_, ?_⟩
    · simp [stopUpdatedTask, currentSecondsOf, elapsedSeconds, hsec]
    · simp [stopUpdatedTask, currentSecondsOf, elapsedSeconds, hsec]
  · intro workspaceId userId now db' n hnd h e he start s₀ hact hsec
    obtain ⟨role, _, _, _, hdb'⟩ :=
      stopAllRunningTaskTimersService_ok db workspaceId userId now db' n h
    subst hdb'
    obtain ⟨hmem, _, _, _⟩ := mem_runningTasks db workspaceId e he
    have hfe : findTask db.tasks e.1 = some e.2 :=
      findTask_of_nodup db.tasks hnd e hmem
    have hlog : stopAllLogFor now userId e ≠ none := by
      unfold stopAllLogFor
      rw [hact]
      exact fun hx => Option.noConfusion hx
    have hres := stopAll_foldl_findTask_mem now userId
      (runningTasks db workspaceId) db e start
      (runningTasks_keys_nodup db workspaceId hnd) he hact
      (by rw [hfe]; rfl)
    refine ⟨Option.isSome_iff_ne_none.mpr hlog, fun wl hwl => ?_,
      by rw [hres]; rfl, fun t' ht' => ?_⟩
    · constructor
      · rw [stopAll_foldl_workLogs now userId]
        exact List.mem_append_right _
          (List.mem_filterMap.mpr ⟨e, he, hwl⟩)
      · unfold stopAllLogFor at hwl
        rw [hact] at hwl
        injection hwl with hwl
        rw [← hwl]
        simp [durationMinutesOf, elapsedSeconds]
    · rw [hres] at ht'
      injection ht' with ht'
      rw [← ht']
      constructor
      · simp [stopAllStopTask, currentSecondsOf, elapsedSeconds, hsec]
      · simp [stopAllStopTask, currentSecondsOf, elapsedSeconds, hsec]

/-- Witness for C1: stopping the running sample task (300 seconds, started at
1000 ms) at 91000 ms appends the 1-minute work-log and yields 390 seconds /
6 minutes. -/
theorem C1_witness :
    exDbStopped.workLogs =
      exDbRunning.workLogs ++ [stopWorkLog 1 3 ⟨none, none⟩ 91000 1000] ∧
    (stopWorkLog 1 3 ⟨none, none⟩ 91000 1000).durationMinutes =
      max 1 ((max 1 (((91000 : Int) - 1000).fdiv 1000)).fdiv 60) ∧
    exStoppedTask.totalSecondsSpent =
      some (300 + max 1 (((91000 : Int) - 1000).fdiv 1000)) ∧
    exStoppedTask.totalMinutesSpent =
      some ((300 + max 1 (((91000 : Int) - 1000).fdiv 1000)).fdiv 60) :=
  (C1_stop_accounting exDbRunning).1 1 3 ⟨none, none⟩ 91000 exDbStopped
    exStoppedTask exRunningTask 1000 300 rfl rfl rfl rfl

/-- C5: a privileged stopAll on a workspace with zero running tasks returns
`stoppedCount: 0` unchanged and without error; in general it returns the
number of running tasks found and appends exactly one work-log per running
task. -/
theorem C5_stopAll_count (db : Db) (workspaceId : WorkspaceId)
    (userId : UserId) (now : Millis) (role : Role)
    (hrole : getMemberRoleInWorkspace db userId workspaceId = .ok role)
    (hpriv : role = Role.owner ∨ role = Role.admin) :
    (runningTasks db workspaceId = [] →
      stopAllRunningTaskTimersService db workspaceId userId now =
        .ok (db, 0)) ∧
    (∀ db' n,
      stopAllRunningTaskTimersService db workspaceId userId now =
        .ok (db', n) →
      n = (runningTasks db workspaceId).length ∧
      db'.workLogs = db.workLogs ++
        (runningTasks db workspaceId).filterMap (stopAllLogFor now userId) ∧
      db'.workLogs.length =
        db.workLogs.length + (runningTasks db workspaceId).length) := by
  have hb : (role == Role.owner || role == Role.admin) = true := by
    rcases hpriv with rfl | rfl <;> rfl
  constructor
  · intro hnil
    unfold stopAllRunningTaskTimersService
    simp only [bind, Except.bind, hrole, hb, Bool.not_true,
      Bool.false_eq_true, if_false, hnil, List.isEmpty_nil, if_true]
  · intro db' n h
    obtain ⟨role₀, hrole₀, _, hn, hdb'⟩ :=
      stopAllRunningTaskTimersService_ok db workspaceId userId now db' n h
    subst hdb'
    have hall : ∀ e ∈ runningTasks db workspaceId,
        (stopAllLogFor now userId e).isSome = true := by
      intro e he
      obtain ⟨_, _, _, hsome⟩ := mem_runningTasks db workspaceId e he
      obtain ⟨start, hstart⟩ := Option.isSome_iff_exists.mp hsome
      unfold stopAllLogFor
      rw [hstart]
      rfl
    refine ⟨hn, stopAll_foldl_workLogs now userId _ db, ?_⟩
    rw [stopAll_foldl_workLogs now userId _ db, List.length_append,
      length_filterMap_of_isSome (stopAllLogFor now userId) _ hall]

/-- Witness for C5: stopAll by the admin (user 9) on the idle sample database
stops nothing and returns count 0; on the two-running-task database it
returns count 2 and appends exactly the two work-logs. -/
theorem C5_witness :
    stopAllRunningTaskTimersService exDbIdle 7 9 91000 = .ok (exDbIdle, 0) ∧
    (2 = (runningTasks exDbTwoRunning 7).length ∧
     exDbTwoStopped.workLogs = exDbTwoRunning.workLogs ++
       (runningTasks exDbTwoRunning 7).filterMap (stopAllLogFor 91000 9) ∧
     exDbTwoStopped.workLogs.length =
       exDbTwoRunning.workLogs.length +
         (runningTasks exDbTwoRunning 7).length) :=
  ⟨(C5_stopAll_count exDbIdle 7 9 91000 Role.admin rfl (Or.inr rfl)).1 rfl,
   (C5_stopAll_count exDbTwoRunning 7 9 91000 Role.admin rfl
      (Or.inr rfl)).2 exDbTwoStopped 2 rfl⟩

/-- C6: every work-log created by stopAll is attributed to the task's
assignee, falling back to the task's creator, then to the invoking actor —
never to the triggering admin when an assignee or creator exists. -/
theorem C6_stopAll_attribution (db : Db) (workspaceId : WorkspaceId)
    (userId : UserId) (now : Millis) (db' : Db) (n : Nat)
    (h : stopAllRunningTaskTimersService db workspaceId userId now =
      .ok (db', n)) :
    ∀ e ∈ runningTasks db workspaceId,
      (stopAllLogFor now userId e).isSome = true ∧
      ∀ wl, stopAllLogFor now userId e = some wl →
        wl ∈ db'.workLogs ∧
        (∀ a, e.2.assignedTo = some a → wl.userId = a) ∧
        (e.2.assignedTo = none → ∀ c, e.2.createdBy = some c →
          wl.userId = c) ∧
        (e.2.assignedTo = none → e.2.createdBy = none →
          wl.userId = userId) := by
  obtain ⟨role, _, _, _, hdb'⟩ :=
    stopAllRunningTaskTimersService_ok db workspaceId userId now db' n h
  subst hdb'
  intro e he
  obtain ⟨_, _, _, hsome⟩ := mem_runningTasks db workspaceId e he
  obtain ⟨start, hstart⟩ := Option.isSome_iff_exists.mp hsome
  constructor
  · unfold stopAllLogFor
    rw [hstart]
    rfl
  · intro wl hwl
    have hmem : wl ∈ ((runningTasks db workspaceId).foldl
        (stopAllStep now userId) db).workLogs := by
      rw [stopAll_foldl_workLogs now userId]
      exact List.mem_append_right _ (List.mem_filterMap.mpr ⟨e, he, hwl⟩)
    unfold stopAllLogFor at hwl
    rw [hstart] at hwl
    injection hwl with hwl
    refine ⟨hmem, ?_, ?_, ?_⟩
    · intro a ha
      rw [← hwl]
      simp [ha]
    · intro hnone c hc
      rw [← hwl]
      simp [hnone, hc]
    · intro hnone hcnone
      rw [← hwl]
      simp [hnone, hcnone]

/-- Witness for C6: in the two-running-task stopAll by admin 9, the log for
task 1 goes to assignee 3 and the log for task 2 (no assignee) goes to
creator 2 — neither to the admin. -/
theorem C6_witness :
    exWlAssignee ∈ exDbTwoStopped.workLogs ∧ exWlAssignee.userId = 3 ∧
    exWlCreator ∈ exDbTwoStopped.workLogs ∧ exWlCreator.userId = 2 := by
  have h := C6_stopAll_attribution exDbTwoRunning 7 9 91000 exDbTwoStopped 2
    rfl
  have h1 := (h (1, exRunningTask) (by decide)).2 exWlAssignee (by decide)
  have h2 := (h (2, exLegacyTask) (by decide)).2 exWlCreator (by decide)
  exact ⟨h1.1, h1.2.1 3 rfl, h2.1, h2.2.2.1 rfl 2 rfl⟩

/-- C4: the path resolver rejects `"../../etc"` for every workspace root,
resolves the empty relative path to the root itself, only ever resolves to
paths under the root, and every file-library operation (list, download,
upload, create folder, delete) consults the resolver first: when it rejects,
the operation fails with that error and storage is untouched apart from the
lazy creation of the workspace root directory itself. -/
theorem C4_path_resolution_safety :
    (∀ root : AbsPath, resolveWorkspacePath root "../../etc" =
      .error (.badRequest "Invalid file path")) ∧
    (∀ root : AbsPath, resolveWorkspacePath root "" = .ok root) ∧
    (∀ (root : AbsPath) (rel : String) (target : AbsPath),
      resolveWorkspacePath root rel = .ok target →
      ∃ rest, target = root ++ rest) ∧
    (∀ (fs : Fs) (root : AbsPath) (relPath : Option String)
      (e : ServiceError),
      resolveWorkspacePath root (relPath.getD "") = .error e →
      listWorkspaceFilesService fs root relPath =
        (.error e, ensureWorkspaceRoot fs root) ∧
      (∀ name, createWorkspaceFolderService fs root relPath name =
        (.error e, ensureWorkspaceRoot fs root)) ∧
      (∀ files, files.isEmpty = false →
        uploadWorkspaceFilesService fs root relPath files =
          (.error e, ensureWorkspaceRoot fs root))) ∧
    (∀ (fs : Fs) (root : AbsPath) (relPath : String) (e : ServiceError),
      resolveWorkspacePath root relPath = .error e →
      getWorkspaceFileDownloadService fs root relPath = (.error e, fs) ∧
      deleteWorkspaceItemService fs root relPath =
        (.error e, ensureWorkspaceRoot fs root)) :=
  ⟨resolveWorkspacePath_traversal,
   resolveWorkspacePath_empty,
   resolveWorkspacePath_ok,
   fun fs root relPath e h =>
     ⟨listWorkspaceFilesService_resolver_error fs root relPath e h,
      fun name =>
        createWorkspaceFolderService_resolver_error fs root relPath name e h,
      fun files hne =>
        uploadWorkspaceFilesService_resolver_error fs root relPath files e
          hne h⟩,
   fun fs root relPath e h =>
     ⟨getWorkspaceFileDownloadService_resolver_error fs root relPath e h,
      deleteWorkspaceItemService_resolver_error fs root relPath e h⟩⟩

/-- Witness for C4 at a concrete root and empty storage: traversal is
rejected, the empty path yields the root, and list/delete on the traversal
path fail leaving only the ensured root directory. -/
theorem C4_witness :
    resolveWorkspacePath exRoot "../../etc" =
      .error (.badRequest "Invalid file path") ∧
    resolveWorkspacePath exRoot "" = .ok exRoot ∧
    listWorkspaceFilesService exFsEmpty exRoot (some "../../etc") =
      (.error (.badRequest "Invalid file path"),
       ensureWorkspaceRoot exFsEmpty exRoot) ∧
    deleteWorkspaceItemService exFsEmpty exRoot "../../etc" =
      (.error (.badRequest "Invalid file path"),
       ensureWorkspaceRoot exFsEmpty exRoot) := by
  obtain ⟨h1, h2, h3, h4, h5⟩ := C4_path_resolution_safety
  exact ⟨h1 exRoot, h2 exRoot,
    (h4 exFsEmpty exRoot (some "../../etc") _ (h1 exRoot)).1,
    (h5 exFsEmpty exRoot "../../etc" _ (h1 exRoot)).2⟩

/-- Counterexample to C8 as stated: the second creation of `"notes"` in the
same directory fails with the BadRequestException (`BadRequest` class), whose
`isConflict` is `false` — not a Conflict-class error. -/
theorem C8_counterexample :
    (createWorkspaceFolderService
      (createWorkspaceFolderService exFsEmpty exRoot (some "") "notes").2
      exRoot (some "") "notes").1 =
      .error (.badRequest "Folder already exists") ∧
    (ServiceError.badRequest "Folder already exists").isConflict = false :=
  ⟨rfl, rfl⟩

/-- C8 (amended): creating a folder whose sanitised target name already
exists fails with a BadRequest-class error carrying the message
`"Folder already exists"`, and creating the same folder name twice in the
same directory makes the second call fail this way. -/
theorem C8_folder_exists_badRequest (fs : Fs) (root : AbsPath)
    (relPath : Option String) (name : String) :
    (∀ targetAbs,
      resolveWorkspacePath root (relPath.getD "") = .ok targetAbs →
      (ensureWorkspaceRoot fs root).pathExists
        (targetAbs ++ [sanitizeFileName name]) = true →
      createWorkspaceFolderService fs root relPath name =
        (.error (.badRequest "Folder already exists"),
         ensureWorkspaceRoot fs root)) ∧
    (∀ res fs',
      createWorkspaceFolderService fs root relPath name = (.ok res, fs') →
      (createWorkspaceFolderService fs' root relPath name).1 =
        .error (.badRequest "Folder already exists")) := by
  constructor
  · intro targetAbs hr hex
    exact createWorkspaceFolderService_exists fs root relPath name targetAbs
      hr hex
  · intro res fs' h
    obtain ⟨targetAbs, hr, _, hfs'⟩ :=
      createWorkspaceFolderService_ok fs root relPath name res fs' h
    have hens : ensureWorkspaceRoot fs' root = fs' := by
      unfold ensureWorkspaceRoot
      apply mkdirRecursive_eq_self
      intro q hq
      rw [hfs']
      exact List.elem_iff.mpr (List.mem_cons_of_mem _
        (List.elem_iff.mp (mkdirRecursive_contains fs root q hq)))
    have hex : (ensureWorkspaceRoot fs' root).pathExists
        (targetAbs ++ [sanitizeFileName name]) = true := by
      rw [hens, hfs']
      have hd : Fs.dirExists
          { ensureWorkspaceRoot fs root with
            dirs := (targetAbs ++ [sanitizeFileName name]) ::
              (ensureWorkspaceRoot fs root).dirs }
          (targetAbs ++ [sanitizeFileName name]) = true :=
        List.elem_iff.mpr (List.mem_cons_self _ _)
      unfold Fs.pathExists
      rw [hd]
      rfl
    rw [createWorkspaceFolderService_exists fs' root relPath name targetAbs
      hr hex]

/-- Witness for C8: creating `"notes"` at the sample root twice — the second
call fails with the BadRequest "Folder already exists" error. -/
theorem C8_witness :
    (createWorkspaceFolderService exFsNotes exRoot (some "") "notes").1 =
      .error (.badRequest "Folder already exists") :=
  (C8_folder_exists_badRequest exFsEmpty exRoot (some "") "notes").2 "notes"
    exFsNotes rfl

end GetSync
